import Mathlib

/-!
# CloudSpec — verification of the core semantics

Shallow embedding of the CloudSpec testing framework (AWS CDK ephemeral
stacks, Step Functions execution client, S3 probe, assertion matchers),
translated from the TypeScript sources.  Remote services (CloudFormation,
S3, Step Functions) are external collaborators; their responses appear as
explicit inputs (values of `Except`/lists of observations), and the
functions below reproduce what the code does with those responses.

Conventions:
* JavaScript `undefined` is `Option.none`; a thrown exception is
  `Except.error`.
* `JSON.parse` is a host primitive; embedded functions take it as a
  parameter `parse : String → Option Json` (`none` = the input is not
  valid JSON, in which case `JSON.parse` throws).  `miniParse` below is a
  concrete instance used to evaluate theorems on concrete inputs.
* Machine integers do not overflow in any path modelled here; timestamps
  and timeouts are `Nat`.
-/

/-- Structured JSON values as produced by `JSON.parse`.  Object fields are
kept in insertion order, exactly as JavaScript objects preserve (string)
key insertion order; numbers in every payload relevant here are integers. -/
inductive Json where
  | null
  | bool (b : Bool)
  | num (n : Int)
  | str (s : String)
  | arr (items : List Json)
  | obj (fields : List (String × Json))

/-- JSON string escaping as done by `JSON.stringify` (the escapes relevant
to the payloads in this development). -/
def jsonEscapeChar (c : Char) : String :=
  if c = '"' then "\\\""
  else if c = '\\' then "\\\\"
  else if c = '\n' then "\\n"
  else if c = '\t' then "\\t"
  else if c = '\r' then "\\r"
  else String.singleton c

/-- Serialize a JSON string literal with quotes, as `JSON.stringify` does. -/
def jsonQuote (s : String) : String :=
  "\"" ++ String.join (s.data.map jsonEscapeChar) ++ "\""

mutual

/-- `JSON.stringify` on structured values: arrays in element order, objects
in key insertion order (ECMAScript semantics). -/
def Json.stringify : Json → String
  | .null => "null"
  | .bool true => "true"
  | .bool false => "false"
  | .num n => toString n
  | .str s => jsonQuote s
  | .arr items => "[" ++ Json.stringifyItems items ++ "]"
  | .obj fields => "\x7b" ++ Json.stringifyFields fields ++ "\x7d"

/-- Comma-separated serialization of array elements. -/
def Json.stringifyItems : List Json → String
  | [] => ""
  | [v] => Json.stringify v
  | v :: vs => Json.stringify v ++ "," ++ Json.stringifyItems vs

/-- Comma-separated serialization of object fields, in insertion order. -/
def Json.stringifyFields : List (String × Json) → String
  | [] => ""
  | [(k, v)] => jsonQuote k ++ ":" ++ Json.stringify v
  | (k, v) :: fs => jsonQuote k ++ ":" ++ Json.stringify v ++ "," ++ Json.stringifyFields fs

end

/-- JavaScript `s || dflt` for `s : string | undefined`: `undefined` and
the empty string are falsy, every other string is truthy. -/
def jsStringOr (o : Option String) (dflt : String) : String :=
  match o with
  | none => dflt
  | some s => if s = "" then dflt else s

/-- The literal `'\x7b\x7d'` that the code supplies as the default raw
output (`output || '\x7b\x7d'`). -/
def jsonEmptyLit : String := "\x7b\x7d"

/-- The result comparison at the heart of `toCompleteStepFunctionsExecution`:
`JSON.stringify(actualResult) === JSON.stringify(expectedResult)`. -/
def resultMatches (actual expected : Json) : Bool :=
  Json.stringify actual == Json.stringify expected

/-! ## A concrete JSON parser

`miniParse` instantiates the `parse` parameter (the host's `JSON.parse`)
at the concrete inputs used by witnesses and counterexamples in this file;
it agrees with ECMAScript `JSON.parse` on those inputs. -/

/-- The `\x7b` character. -/
def lbraceChar : Char := Char.ofNat 123

/-- The `\x7d` character. -/
def rbraceChar : Char := Char.ofNat 125

/-- Skip JSON whitespace. -/
def skipJsonWs : List Char → List Char
  | [] => []
  | c :: cs =>
    if c = ' ' || c = '\t' || c = '\n' || c = '\r' then skipJsonWs cs else c :: cs

/-- Parse a run of decimal digits into a natural number. -/
def parseJsonDigits (l : List Char) : Option (Nat × List Char) :=
  let ds := l.takeWhile Char.isDigit
  if ds.isEmpty then none
  else some (ds.foldl (fun acc c => acc * 10 + (c.toNat - 48)) 0, l.dropWhile Char.isDigit)

/-- Parse the body of a JSON string literal (after the opening quote),
returning the decoded characters and the remaining input. -/
def parseJsonStringBody : List Char → Option (List Char × List Char)
  | [] => none
  | '\\' :: [] => none
  | '\\' :: e :: rest =>
    let esc : Option Char :=
      if e = '"' then some '"'
      else if e = '\\' then some '\\'
      else if e = '/' then some '/'
      else if e = 'n' then some '\n'
      else if e = 't' then some '\t'
      else if e = 'r' then some '\r'
      else none
    match esc with
    | none => none
    | some ch => (parseJsonStringBody rest).map fun p => (ch :: p.1, p.2)
  | c :: rest =>
    if c = '"' then some ([], rest)
    else (parseJsonStringBody rest).map fun p => (c :: p.1, p.2)

mutual

/-- Recursive-descent JSON value parser with explicit fuel. -/
def parseJsonValue : Nat → List Char → Option (Json × List Char)
  | 0, _ => none
  | Nat.succ fuel, l =>
    match skipJsonWs l with
    | [] => none
    | c :: rest =>
      if c = lbraceChar then
        match skipJsonWs rest with
        | d :: rest2 =>
          if d = rbraceChar then some (.obj [], rest2)
          else parseJsonFields fuel (d :: rest2) |>.map fun p => (Json.obj p.1, p.2)
        | [] => none
      else if c = '[' then
        match skipJsonWs rest with
        | ']' :: rest2 => some (.arr [], rest2)
        | rest2 => parseJsonItems fuel rest2 |>.map fun p => (Json.arr p.1, p.2)
      else if c = '"' then
        (parseJsonStringBody rest).map fun p => (Json.str (String.mk p.1), p.2)
      else if c = '-' then
        (parseJsonDigits rest).map fun p => (Json.num (-(p.1 : Int)), p.2)
      else if c.isDigit then
        (parseJsonDigits (c :: rest)).map fun p => (Json.num (p.1 : Int), p.2)
      else
        match c :: rest with
        | 'n' :: 'u' :: 'l' :: 'l' :: rest2 => some (.null, rest2)
        | 't' :: 'r' :: 'u' :: 'e' :: rest2 => some (.bool true, rest2)
        | 'f' :: 'a' :: 'l' :: 's' :: 'e' :: rest2 => some (.bool false, rest2)
        | _ => none

/-- Parse one or more comma-separated array elements up to `]`. -/
def parseJsonItems : Nat → List Char → Option (List Json × List Char)
  | 0, _ => none
  | Nat.succ fuel, l => do
    let (v, r) ← parseJsonValue fuel l
    match skipJsonWs r with
    | ',' :: r2 => (parseJsonItems fuel r2).map fun p => (v :: p.1, p.2)
    | ']' :: r2 => some ([v], r2)
    | _ => none

/-- Parse one or more comma-separated object fields up to `\x7d`. -/
def parseJsonFields : Nat → List Char → Option (List (String × Json) × List Char)
  | 0, _ => none
  | Nat.succ fuel, l =>
    match skipJsonWs l with
    | '"' :: r0 => do
      let (k, r1) ← parseJsonStringBody r0
      match skipJsonWs r1 with
      | ':' :: r2 => do
        let (v, r3) ← parseJsonValue fuel r2
        match skipJsonWs r3 with
        | ',' :: r4 => (parseJsonFields fuel r4).map fun p => ((String.mk k, v) :: p.1, p.2)
        | d :: r4 =>
          if d = rbraceChar then some ([(String.mk k, v)], r4) else none
        | [] => none
      | _ => none
    | _ => none

end

/-- Concrete stand-in for `JSON.parse`: `some` is a parsed value, `none`
means `JSON.parse` throws a `SyntaxError`. -/
def miniParse (s : String) : Option Json :=
  match parseJsonValue (s.length + 1) s.data with
  | some (v, rest) => if (skipJsonWs rest).isEmpty then some v else none
  | none => none

/-! ## Resource Policy Rewriter (`EphemeralResourcesAspect`)

The aspect visits every construct-tree node once (guaranteed by the CDK
`Aspects` machinery, an external collaborator) and rewrites it in place.
A node record merges an L2 `Bucket` construct with its underlying
`CfnResource` (`CfnBucket`), since the rewrite is node-local:
`applyRemovalPolicy(RemovalPolicy.DESTROY)` on the bucket sets the
underlying resource's deletion and update-replace policies to `DELETE`. -/

/-- `CfnDeletionPolicy` values referenced by the stack under test. -/
inductive CfnDeletionPolicy where
  | DELETE
  | RETAIN
  | SNAPSHOT
deriving DecidableEq, Repr

/-- One node of the resource graph, with the capabilities the aspect
inspects: `instanceof CfnResource` (policy-bearing), `instanceof Bucket`
(object-store container). -/
structure ResourceNode where
  isCfnResource : Bool
  deletionPolicy : Option CfnDeletionPolicy
  updateReplacePolicy : Option CfnDeletionPolicy
  isBucket : Bool
  autoDeleteObjects : Bool
  warnings : List String
deriving DecidableEq, Repr

/-- The warning text attached by `Annotations.of(node).addWarning`. -/
def ephemeralWarningMsg : String :=
  "This resource is set for automatic deletion, including all its contents."

/-- Only `CfnResource` nodes carry `cfnOptions` policies, and a merged
bucket record represents its underlying `CfnResource` as well. -/
def NodeWellFormed (n : ResourceNode) : Prop :=
  n.isCfnResource = false → n.isBucket = false →
    n.deletionPolicy = none ∧ n.updateReplacePolicy = none

instance (n : ResourceNode) : Decidable (NodeWellFormed n) := by
  unfold NodeWellFormed; infer_instance

/-- `EphemeralResourcesAspect.visit(node)`: replace retain policies with
delete; for buckets, force `RemovalPolicy.DESTROY`, enable
`autoDeleteObjects`, and attach the advisory warning. -/
def EphemeralResourcesAspect.visit (node : ResourceNode) : ResourceNode :=
  let node1 :=
    if node.isCfnResource then
      let nodeA :=
        if node.deletionPolicy = some CfnDeletionPolicy.RETAIN then
          { node with deletionPolicy := some CfnDeletionPolicy.DELETE }
        else node
      if nodeA.updateReplacePolicy = some CfnDeletionPolicy.RETAIN then
        { nodeA with updateReplacePolicy := some CfnDeletionPolicy.DELETE }
      else nodeA
    else node
  if node1.isBucket then
    { node1 with
        deletionPolicy := some CfnDeletionPolicy.DELETE
        updateReplacePolicy := some CfnDeletionPolicy.DELETE
        autoDeleteObjects := true
        warnings := node1.warnings ++ [ephemeralWarningMsg] }
  else node1

/-- The aspect applied to the whole graph: every node visited exactly once. -/
def EphemeralResourcesAspect.run (g : List ResourceNode) : List ResourceNode :=
  g.map EphemeralResourcesAspect.visit

/-! ## Output Registry (`cloudSpec`'s `outputs` closure)

`let outputs = \x7b\x7d` in `cloudSpec()`; the `setOutputs` callback and
the post-deploy read each assign the whole object (`outputs = o`), and a
test body reads `outputs[name]` by property access — an absent key yields
`undefined` (`none`), never a thrown error. -/

structure OutputRegistry where
  outputs : List (String × String)
deriving DecidableEq, Repr

/-- The registry at `cloudSpec()` creation: the empty object. -/
def OutputRegistry.init : OutputRegistry := ⟨[]⟩

/-- `outputs = o`: wholesale overwrite, never an error. -/
def OutputRegistry.set (_ : OutputRegistry) (o : List (String × String)) : OutputRegistry :=
  ⟨o⟩

/-- Property access `outputs[name]`: the value, or `undefined` when absent. -/
def OutputRegistry.get (r : OutputRegistry) (name : String) : Option String :=
  r.outputs.lookup name

/-- Reading an output as the test body performs it.  JavaScript property
access cannot throw here, so the result is always `Except.ok`; the error
type records that a thrown exception would be a string-carrying `Error`. -/
def OutputRegistry.getChecked (r : OutputRegistry) (name : String) : Except String (Option String) :=
  Except.ok (r.get name)

/-! ## Deployment-name derivation -/

/-- A character admitted by the sanitized-name alphabet `[A-Za-z0-9-]`. -/
def isStackNameChar (c : Char) : Bool := c.isAlphanum || c = '-'

/-- `name.replace(/[^a-zA-Z0-9]/g, '-')` acts on each character. -/
def sanitizeChar (c : Char) : Char := if c.isAlphanum then c else '-'

/-- The sanitization in `createTestApp` (`app.ts`): every individual
non-alphanumeric character becomes a hyphen. -/
def sanitizeStackName (name : String) : String :=
  String.mk (name.data.map sanitizeChar)

/-- Characters matched by the JavaScript `\s` class (ASCII portion). -/
def isJsWhitespace (c : Char) : Bool :=
  c = ' ' || c = '\t' || c = '\n' || c = '\r' || c = '\x0b' || c = '\x0c'

/-- `replace(/\s+/g, '-')`: each maximal whitespace run becomes a single
hyphen; every other character is kept unchanged. -/
def collapseWsAux (prevWs : Bool) : List Char → List Char
  | [] => []
  | c :: cs =>
    if isJsWhitespace c then
      if prevWs then collapseWsAux true cs else '-' :: collapseWsAux true cs
    else c :: collapseWsAux false cs

/-- String version of `replace(/\s+/g, '-')` used by `inferStackName`. -/
def collapseWs (s : String) : String := String.mk (collapseWsAux false s.data)

/-- JavaScript truthiness of a `string | undefined`. -/
def jsTruthyStr : Option String → Bool
  | none => false
  | some s => !(s == "")

/-- `inferStackName(testName)` from `cloudSpec` (part_003): prefix
`CloudSpec`, whitespace runs in the test name collapsed to hyphens, and
the invoking user's name appended.  `describeName` stands for the
`describe.name` fallback read when `testName` is falsy. -/
def inferStackName (testName : Option String) (describeName : String) (username : String) : String :=
  if jsTruthyStr testName then
    "CloudSpec-" ++ collapseWs (testName.getD "") ++ "-" ++ username
  else if describeName ≠ "" then
    "CloudSpec-" ++ collapseWs describeName ++ "-" ++ username
  else
    "CloudSpec-DefaultTest-" ++ username

/-- Template interpolation of a possibly-undefined string. -/
def templateStr : Option String → String
  | none => "undefined"
  | some s => s

/-- `a || b` on two `string | undefined` environment values. -/
def jsStrOrElse (a b : Option String) : Option String :=
  if jsTruthyStr a then a else b

/-- The stack-name derivation in `createTestApp` (`app.ts`):
`props.name` (defaulted, when `undefined`, to
`TestStack-<GITHUB_REF_NAME || USER>-<digest>` where `digest` is the
first 8 hex characters of the sha256 of the test path), then
`name.replace(/[^a-zA-Z0-9]/g, '-')`. -/
def createTestAppStackName (propsName githubRefName user : Option String)
    (digest : String) : String :=
  let defaultName := "TestStack-" ++ templateStr (jsStrOrElse githubRefName user) ++ "-" ++ digest
  sanitizeStackName (propsName.getD defaultName)

/-! ## Workflow Execution Client (`stepFunctions.execute`)

The remote service is an external collaborator: the durable-mode poll loop
consumes the sequence of `DescribeExecutionCommand` responses it would
observe, each paired with the `Date.now()` value at that iteration; the
fast (express) mode consumes the single `StartSyncExecutionCommand`
response.  `parse` stands for the host `JSON.parse`. -/

/-- Errors the execution client can throw. -/
inductive SfnError where
  | jsonParseError
  | sdk (msg : String)
deriving DecidableEq, Repr

/-- `StepFunctionsExecutionResult` (part_003): `output?` holds the parsed
payload when present. -/
structure StepFunctionsExecutionResult where
  status : String
  output : Option Json
  executionArn : String

/-- One iteration's view: the `Date.now()` reading and the
`DescribeExecutionCommand` response (`status`, raw `output`). -/
structure PollObservation where
  now : Nat
  status : String
  output : Option String

/-- `['SUCCEEDED', 'FAILED', 'TIMED_OUT', 'ABORTED'].includes(status)`. -/
def isTerminalStatus (s : String) : Bool :=
  s = "SUCCEEDED" || s = "FAILED" || s = "TIMED_OUT" || s = "ABORTED"

/-- The poll loop of `executeStandardStepFunctions` (part_003), entered
after `StartExecutionCommand` returned `executionArn`.  Each iteration:
describe the execution; on a terminal status return it with
`JSON.parse(output || '\x7b\x7d')` (a parse failure is thrown and
re-thrown by the surrounding catch); otherwise, if
`Date.now() - startTime > timeout`, return a locally synthesized
`TIMED_OUT` with no output; otherwise sleep 5 s and poll again.  An
exhausted observation list (`Except.ok none`) is a loop still running. -/
def executeStandardStepFunctions (parse : String → Option Json)
    (startTime timeout : Nat) (executionArn : String) :
    List PollObservation → Except SfnError (Option StepFunctionsExecutionResult)
  | [] => Except.ok none
  | obs :: rest =>
    if isTerminalStatus obs.status then
      match parse (jsStringOr obs.output jsonEmptyLit) with
      | some v => Except.ok (some ⟨obs.status, some v, executionArn⟩)
      | none => Except.error SfnError.jsonParseError
    else if startTime + timeout < obs.now then
      Except.ok (some ⟨"TIMED_OUT", none, executionArn⟩)
    else
      executeStandardStepFunctions parse startTime timeout executionArn rest

/-- The `StartSyncExecutionCommand` response consumed in fast mode. -/
structure SyncResponse where
  status : String
  output : Option String
  executionArn : String

/-- `executeExpressStepFunctions` (part_003): a single synchronous call;
the returned status is mapped directly, with
`output: JSON.parse(syncResponse.output || '\x7b\x7d')`; an SDK or parse
error is logged and re-thrown. -/
def executeExpressStepFunctions (parse : String → Option Json) :
    Except SfnError SyncResponse → Except SfnError StepFunctionsExecutionResult
  | Except.error e => Except.error e
  | Except.ok r =>
    match parse (jsStringOr r.output jsonEmptyLit) with
    | some v => Except.ok ⟨r.status, some v, r.executionArn⟩
    | none => Except.error SfnError.jsonParseError

/-! ## Assertion Matcher Layer (part_004's `toCompleteStepFunctionsExecution`) -/

/-- The `actual` payload a matcher attaches: the raw service output
string (express `FAILED` branch) or a parsed JSON value. -/
inductive MatcherPayload where
  | raw (s : Option String)
  | json (v : Json)

/-- `MatcherResult` (part_004) without the advisory `message` thunk, which
no observable behaviour in this development depends on. -/
structure MatcherResult where
  pass : Bool
  actual : Option MatcherPayload
  expected : Option Json

/-- The express branch of `toCompleteStepFunctionsExecution` (part_004):
everything from the sync call through the result comparison runs inside
one `try`, whose `catch` returns `pass: false` — so this branch never
throws.  A service-reported `FAILED` is reported (before any parsing)
with the raw output attached as `actual`. -/
def toCompleteExpressExecution (parse : String → Option Json)
    (syncResult : Except SfnError SyncResponse) (expectedResult : Option Json) :
    MatcherResult :=
  match syncResult with
  | Except.error _ => ⟨false, none, none⟩
  | Except.ok r =>
    if r.status = "FAILED" then
      ⟨false, some (MatcherPayload.raw r.output), none⟩
    else
      match parse (jsStringOr r.output jsonEmptyLit) with
      | none => ⟨false, none, none⟩
      | some actualResult =>
        match expectedResult with
        | some exp => ⟨resultMatches actualResult exp, some (MatcherPayload.json actualResult), some exp⟩
        | none => ⟨true, some (MatcherPayload.json actualResult), none⟩

/-- `['FAILED', 'TIMED_OUT', 'ABORTED'].includes(status)` in the standard
polling branch of the matcher. -/
def isFailedTerminalStatus (s : String) : Bool :=
  s = "FAILED" || s = "TIMED_OUT" || s = "ABORTED"

/-- The standard-workflow polling branch of
`toCompleteStepFunctionsExecution` (part_004): on `SUCCEEDED`,
`JSON.parse(output || '\x7b\x7d')` (not wrapped in a `try`, so a parse
failure throws out of the matcher) and, when an expected result was
supplied, the `JSON.stringify` comparison; on `FAILED`/`TIMED_OUT`/
`ABORTED` or on local deadline expiry, `pass: false`. -/
def toCompleteStandardExecution (parse : String → Option Json)
    (startTime timeout : Nat) (expectedResult : Option Json) :
    List PollObservation → Except SfnError (Option MatcherResult)
  | [] => Except.ok none
  | obs :: rest =>
    if obs.status = "SUCCEEDED" then
      match parse (jsStringOr obs.output jsonEmptyLit) with
      | none => Except.error SfnError.jsonParseError
      | some actualResult =>
        match expectedResult with
        | some exp =>
          Except.ok (some ⟨resultMatches actualResult exp, some (MatcherPayload.json actualResult), some exp⟩)
        | none => Except.ok (some ⟨true, none, none⟩)
    else if isFailedTerminalStatus obs.status then
      Except.ok (some ⟨false, none, none⟩)
    else if startTime + timeout < obs.now then
      Except.ok (some ⟨false, none, none⟩)
    else
      toCompleteStandardExecution parse startTime timeout expectedResult rest

/-! ## Object Store Probe (`s3.objectExists`) and the `toHaveKey` matcher -/

/-- Failure modes of an S3 `HeadObjectCommand`, distinguished so the
error-handling policy can be stated per error kind. -/
inductive S3Error where
  | notFound
  | permissionDenied
  | networkError
deriving DecidableEq, Repr

/-- `s3.objectExists` (part_003): `try \x7b await send(head); return true \x7d
catch \x7b console.error(...); return false \x7d` — every error, of any
kind, is logged and converted to `false`; nothing propagates. -/
def s3ObjectExists (headResult : Except S3Error Unit) : Except S3Error Bool :=
  match headResult with
  | Except.ok _ => Except.ok true
  | Except.error _ => Except.ok false

/-- What §4.6 of the specification prescribes for the existence check,
stated for comparison with `s3ObjectExists`: swallow not-found as
`false`, propagate permission and network errors. -/
def s3ObjectExistsSpec (headResult : Except S3Error Unit) : Except S3Error Bool :=
  match headResult with
  | Except.ok _ => Except.ok true
  | Except.error S3Error.notFound => Except.ok false
  | Except.error e => Except.error e

/-- The `toHaveKey` matcher (aws-matcher `index.ts`): same head call, any
error yields `pass: false`. -/
def toHaveKey (headResult : Except S3Error Unit) : MatcherResult :=
  match headResult with
  | Except.ok _ => ⟨true, none, none⟩
  | Except.error _ => ⟨false, none, none⟩

/-! ## Teardown (`CdkTestHelper.destroyStack` and `cloudSpec`'s `afterAll`) -/

/-- Whether the `afterAll` hook invoked the destroy path. -/
inductive TeardownAction where
  | skipped
  | destroyed
deriving DecidableEq, Repr

/-- `CdkTestHelper.destroyStack`: `try \x7b await cli.destroy(...); log \x7d
catch \x7b console.error(...); throw error; \x7d` — the failure is logged
and then re-thrown. -/
def CdkTestHelper.destroyStack (cliDestroy : Except String Unit) : Except String Unit :=
  match cliDestroy with
  | Except.ok _ => Except.ok ()
  | Except.error e => Except.error e

/-- The `afterAll` hook registered by `cloudSpec()`: destroy only when
`process.env.CLOUDSPEC_DESTROY_AFTER_TEST === 'true'`; the hook itself
has no catch, so a `destroyStack` rejection propagates to the runner. -/
def cloudSpecAfterAll (destroyEnv : Option String) (cliDestroy : Except String Unit) :
    Except String TeardownAction :=
  if destroyEnv = some "true" then
    match CdkTestHelper.destroyStack cliDestroy with
    | Except.ok _ => Except.ok TeardownAction.destroyed
    | Except.error e => Except.error e
  else
    Except.ok TeardownAction.skipped

/-! ## Helper lemmas -/

/-- Non-whitespace characters survive `replace(/\s+/g, '-')` unchanged. -/
lemma mem_collapseWsAux_of_not_ws {c : Char} :
    ∀ (l : List Char) (b : Bool), c ∈ l → isJsWhitespace c = false → c ∈ collapseWsAux b l := by
  intro l
  induction l with
  | nil => intro b hc _; cases hc
  | cons d ds ih =>
    intro b hc hws
    rcases List.mem_cons.mp hc with rfl | hmem
    · simp [collapseWsAux, hws]
    · unfold collapseWsAux
      by_cases hd : isJsWhitespace d
      · simp only [hd, if_pos]
        by_cases hb : b
        · simpa [hb] using ih true hmem hws
        · simp only [hb, if_neg, Bool.false_eq_true, not_false_eq_true, if_false]
          exact List.mem_cons_of_mem _ (ih true hmem hws)
      · simp only [hd, if_neg, Bool.false_eq_true, not_false_eq_true, if_false]
        exact List.mem_cons_of_mem _ (ih false hmem hws)

/-- A locally synthesized `TIMED_OUT` (no output) can only come from an
iteration whose observed status was non-terminal with the deadline passed. -/
lemma executeStandard_synth_timeout (parse : String → Option Json)
    (startTime timeout : Nat) (arn : String) :
    ∀ trace, executeStandardStepFunctions parse startTime timeout arn trace =
        Except.ok (some ⟨"TIMED_OUT", none, arn⟩) →
      ∃ obs, obs ∈ trace ∧ isTerminalStatus obs.status = false ∧ startTime + timeout < obs.now := by
  intro trace
  induction trace with
  | nil => intro h; simp [executeStandardStepFunctions] at h
  | cons obs rest ih =>
    intro h
    unfold executeStandardStepFunctions at h
    by_cases h1 : isTerminalStatus obs.status
    · rw [if_pos h1] at h
      cases hp : parse (jsStringOr obs.output jsonEmptyLit) <;> rw [hp] at h
      · simp at h
      · simp at h
    · rw [if_neg h1] at h
      by_cases h2 : startTime + timeout < obs.now
      · exact ⟨obs, List.mem_cons_self _ _, by simpa using h1, h2⟩
      · rw [if_neg h2] at h
        rcases ih h with ⟨o, ho, hterm, hdl⟩
        exact ⟨o, List.mem_cons_of_mem _ ho, hterm, hdl⟩

/-- Any outcome of the standard poll loop whose output is absent is the
locally synthesized `TIMED_OUT`. -/
lemma executeStandard_output_none (parse : String → Option Json)
    (startTime timeout : Nat) (arn : String) :
    ∀ trace r, executeStandardStepFunctions parse startTime timeout arn trace =
        Except.ok (some r) → r.output = none → r.status = "TIMED_OUT" := by
  intro trace
  induction trace with
  | nil => intro r h; simp [executeStandardStepFunctions] at h
  | cons obs rest ih =>
    intro r h hout
    unfold executeStandardStepFunctions at h
    by_cases h1 : isTerminalStatus obs.status
    · rw [if_pos h1] at h
      cases hp : parse (jsStringOr obs.output jsonEmptyLit) <;> rw [hp] at h
      · simp at h
      · simp at h
        subst h
        simp at hout
    · rw [if_neg h1] at h
      by_cases h2 : startTime + timeout < obs.now
      · rw [if_pos h2] at h
        simp at h
        subst h
        rfl
      · rw [if_neg h2] at h
        exact ih r h hout

/-- When the first observation is terminal and its raw output parses, the
loop returns that status with the parsed output. -/
lemma executeStandard_head_terminal (parse : String → Option Json)
    (startTime timeout : Nat) (arn : String)
    (now : Nat) (status : String) (o : Option String) (rest : List PollObservation)
    (v : Json) (h1 : isTerminalStatus status = true)
    (hp : parse (jsStringOr o jsonEmptyLit) = some v) :
    executeStandardStepFunctions parse startTime timeout arn (⟨now, status, o⟩ :: rest) =
      Except.ok (some ⟨status, some v, arn⟩) := by
  unfold executeStandardStepFunctions
  simp [h1, hp]

/-- Unfolding of the fast-mode call on a successful sync response. -/
lemma executeExpress_ok (parse : String → Option Json) (r : SyncResponse) :
    executeExpressStepFunctions parse (Except.ok r) =
      match parse (jsStringOr r.output jsonEmptyLit) with
      | some v => Except.ok ⟨r.status, some v, r.executionArn⟩
      | none => Except.error SfnError.jsonParseError := rfl

/-- Node-local effect of `EphemeralResourcesAspect.visit`. -/
lemma visit_clears_retain (m : ResourceNode) (h : NodeWellFormed m) :
    (EphemeralResourcesAspect.visit m).deletionPolicy ≠ some CfnDeletionPolicy.RETAIN ∧
    (EphemeralResourcesAspect.visit m).updateReplacePolicy ≠ some CfnDeletionPolicy.RETAIN ∧
    ((EphemeralResourcesAspect.visit m).isBucket = true →
      (EphemeralResourcesAspect.visit m).autoDeleteObjects = true ∧
      ephemeralWarningMsg ∈ (EphemeralResourcesAspect.visit m).warnings) := by
  unfold EphemeralResourcesAspect.visit
  rcases m with ⟨cfn, dp, urp, bkt, ado, ws⟩
  cases bkt
  · cases cfn
    · have hwf := h rfl rfl
      simp_all
    · by_cases h1 : dp = some CfnDeletionPolicy.RETAIN <;>
        by_cases h2 : urp = some CfnDeletionPolicy.RETAIN <;>
          simp_all
  · cases cfn <;>
      · by_cases h1 : dp = some CfnDeletionPolicy.RETAIN <;>
          by_cases h2 : urp = some CfnDeletionPolicy.RETAIN <;>
            simp_all

/-! ## Claims -/

/-- **C1**: after `EphemeralResourcesAspect` has visited every node of the
graph, no node carries a retain-type (`RETAIN`) deletion or
update-replacement policy, and every bucket node has automatic purge of
its contents (`autoDeleteObjects`) enabled with the non-fatal advisory
warning attached.  Well-formedness records that only `CfnResource` nodes
(or merged bucket records) carry `cfnOptions` policies. -/
theorem c1_ephemeral_aspect (g : List ResourceNode) (hwf : ∀ n ∈ g, NodeWellFormed n) :
    ∀ n ∈ EphemeralResourcesAspect.run g,
      n.deletionPolicy ≠ some CfnDeletionPolicy.RETAIN ∧
      n.updateReplacePolicy ≠ some CfnDeletionPolicy.RETAIN ∧
      (n.isBucket = true → n.autoDeleteObjects = true ∧ ephemeralWarningMsg ∈ n.warnings) := by
  intro n hn
  rcases List.mem_map.mp hn with ⟨m, hm, rfl⟩
  exact visit_clears_retain m (hwf m hm)

/-- Witness for C1: a graph with a retained plain resource and a retained
bucket, run through the aspect. -/
theorem c1_ephemeral_aspect_witness :
    (⟨true, some CfnDeletionPolicy.DELETE, none, false, false, []⟩ : ResourceNode).deletionPolicy
        ≠ some CfnDeletionPolicy.RETAIN ∧
      (⟨true, some CfnDeletionPolicy.DELETE, none, false, false, []⟩ : ResourceNode).updateReplacePolicy
        ≠ some CfnDeletionPolicy.RETAIN ∧
      ((⟨true, some CfnDeletionPolicy.DELETE, none, false, false, []⟩ : ResourceNode).isBucket = true →
        (⟨true, some CfnDeletionPolicy.DELETE, none, false, false, []⟩ : ResourceNode).autoDeleteObjects = true ∧
        ephemeralWarningMsg ∈ (⟨true, some CfnDeletionPolicy.DELETE, none, false, false, []⟩ : ResourceNode).warnings) :=
  c1_ephemeral_aspect [⟨true, some CfnDeletionPolicy.RETAIN, none, false, false, []⟩]
    (by decide) _ (by decide)

/-- **C2**: in durable mode the loop checks status before the deadline:
a terminal status observed in an iteration is honoured as the outcome
even when the deadline has already expired, and the locally synthesized
`TIMED_OUT` (no output) arises only from an iteration whose status was
still non-terminal with elapsed time beyond `timeoutMs`. -/
theorem c2_status_checked_before_deadline (parse : String → Option Json)
    (startTime timeout : Nat) (arn : String) :
    (∀ (now : Nat) (status : String) (o : Option String) (rest : List PollObservation) (v : Json),
        isTerminalStatus status = true →
        startTime + timeout < now →
        parse (jsStringOr o jsonEmptyLit) = some v →
        executeStandardStepFunctions parse startTime timeout arn (⟨now, status, o⟩ :: rest) =
          Except.ok (some ⟨status, some v, arn⟩)) ∧
    (∀ trace, executeStandardStepFunctions parse startTime timeout arn trace =
          Except.ok (some ⟨"TIMED_OUT", none, arn⟩) →
        ∃ obs, obs ∈ trace ∧ isTerminalStatus obs.status = false ∧ startTime + timeout < obs.now) :=
  ⟨fun now status o rest v h1 _ hp =>
     executeStandard_head_terminal parse startTime timeout arn now status o rest v h1 hp,
   executeStandard_synth_timeout parse startTime timeout arn⟩

/-- Witness for C2: a `SUCCEEDED` status observed at `now = 100`, long
after the deadline `startTime + timeout = 10`, is still returned. -/
theorem c2_status_checked_before_deadline_witness :
    executeStandardStepFunctions miniParse 0 10 "arn" [⟨100, "SUCCEEDED", none⟩] =
      Except.ok (some ⟨"SUCCEEDED", some (Json.obj []), "arn"⟩) :=
  (c2_status_checked_before_deadline miniParse 0 10 "arn").1 100 "SUCCEEDED" none [] (Json.obj [])
    (by decide) (by decide) (by rfl)

/-- Counterexample to **C3**: the comparison is
`JSON.stringify(actual) === JSON.stringify(expected)`, and JavaScript
objects serialize in key insertion order, so the parsed `«a:1,b:2»`
payload does not match an expected value built as `«b:2,a:1»` — against
the claim that key order is irrelevant. -/
theorem c3_counterexample :
    resultMatches (Json.obj [("a", Json.num 1), ("b", Json.num 2)])
        (Json.obj [("b", Json.num 2), ("a", Json.num 1)]) = false ∧
      (toCompleteExpressExecution miniParse
          (Except.ok ⟨"SUCCEEDED", some "\x7b\"a\":1,\"b\":2\x7d", "arn"⟩)
          (some (Json.obj [("b", Json.num 2), ("a", Json.num 1)]))).pass = false := by
  exact ⟨rfl, rfl⟩

/-- **C3 (amended)**: the success comparison is exact equality of the
`JSON.stringify` serializations — order-sensitive for arrays *and* for
object key insertion order (equal values with equal field order match;
`[1,2]` never matches `[2,1]`; `«a:1,b:2»` does not match `«b:2,a:1»`,
see the counterexample); the matcher's pass flag is exactly this
comparison. -/
theorem c3_stringify_equality_amended :
    (∀ v : Json, resultMatches v v = true) ∧
    resultMatches (Json.arr [Json.num 1, Json.num 2]) (Json.arr [Json.num 2, Json.num 1]) = false ∧
    (∀ (parse : String → Option Json) (r : SyncResponse) (exp actualResult : Json),
        r.status ≠ "FAILED" →
        parse (jsStringOr r.output jsonEmptyLit) = some actualResult →
        (toCompleteExpressExecution parse (Except.ok r) (some exp)).pass =
          resultMatches actualResult exp) ∧
    (∀ (parse : String → Option Json) (startTime timeout : Nat) (obs : PollObservation)
        (rest : List PollObservation) (exp actualResult : Json),
        obs.status = "SUCCEEDED" →
        parse (jsStringOr obs.output jsonEmptyLit) = some actualResult →
        toCompleteStandardExecution parse startTime timeout (some exp) (obs :: rest) =
          Except.ok (some ⟨resultMatches actualResult exp,
            some (MatcherPayload.json actualResult), some exp⟩)) := by
  refine ⟨fun v => by simp [resultMatches], rfl, ?_, ?_⟩
  · intro parse r exp actualResult hs hp
    unfold toCompleteExpressExecution
    simp [hs, hp]
  · intro parse startTime timeout obs rest exp actualResult hs hp
    unfold toCompleteStandardExecution
    simp [hs, hp]

/-- Witness for C3 (amended): a matching run through the express matcher. -/
theorem c3_stringify_equality_amended_witness :
    (toCompleteExpressExecution miniParse (Except.ok ⟨"SUCCEEDED", some "[1,2]", "arn"⟩)
        (some (Json.arr [Json.num 1, Json.num 2]))).pass =
      resultMatches (Json.arr [Json.num 1, Json.num 2]) (Json.arr [Json.num 1, Json.num 2]) :=
  c3_stringify_equality_amended.2.2.1 miniParse ⟨"SUCCEEDED", some "[1,2]", "arn"⟩
    (Json.arr [Json.num 1, Json.num 2]) (Json.arr [Json.num 1, Json.num 2])
    (by decide) (by rfl)

/-- Counterexample to **C4**: reading an output before any `set` does not
fail — there is no `OutputNotReadyError` anywhere in the code; the
property access returns normally with `undefined` (`Except.ok none`). -/
theorem c4_counterexample :
    OutputRegistry.getChecked OutputRegistry.init "a" = Except.ok none := rfl

/-- **C4 (amended)**: a get of any output name before the first `set`
returns no value (`undefined`) rather than failing with a named error;
after `set(«a:"1"»)`, `get "a"` is `"1"`; a later `set(«a:"2"»)` in the
same scope overwrites without error, so `get "a"` is `"2"` (last write
wins). -/
theorem c4_output_registry_amended :
    (∀ name, OutputRegistry.getChecked OutputRegistry.init name = Except.ok none) ∧
    OutputRegistry.getChecked (OutputRegistry.set OutputRegistry.init [("a", "1")]) "a" =
      Except.ok (some "1") ∧
    OutputRegistry.getChecked
        (OutputRegistry.set (OutputRegistry.set OutputRegistry.init [("a", "1")]) [("a", "2")]) "a" =
      Except.ok (some "2") :=
  ⟨fun _ => rfl, rfl, rfl⟩

/-- Counterexample to **C5**: `createTestApp` replaces each
non-alphanumeric *character* with a hyphen (a run of two spaces becomes
two hyphens, not one), and `inferStackName` collapses only *whitespace*
runs, so a derived name can contain characters outside `[A-Za-z0-9-]`
(here an underscore). -/
theorem c5_counterexample :
    sanitizeStackName "a  b" = "a--b" ∧
    sanitizeStackName "a  b" ≠ "a-b" ∧
    inferStackName (some "a_b") "" "bob" = "CloudSpec-a_b-bob" ∧
    '_' ∈ "CloudSpec-a_b-bob".data ∧
    isStackNameChar '_' = false :=
  ⟨rfl, by decide, rfl, by decide, by decide⟩

/-- **C5 (amended)**: derivation is a pure, deterministic function of its
inputs.  In `createTestApp` each non-alphanumeric character is replaced
by a hyphen individually — the output uses only `[A-Za-z0-9-]`, but a run
of k such characters yields k hyphens (length is preserved).  In
`inferStackName` only whitespace runs collapse to single hyphens; every
non-whitespace character (alphanumeric or not) survives unchanged, so the
result may contain characters outside `[A-Za-z0-9-]`. -/
theorem c5_name_derivation_amended :
    (∀ s : String, ∀ c ∈ (sanitizeStackName s).data, isStackNameChar c = true) ∧
    (∀ s : String, (sanitizeStackName s).length = s.length) ∧
    (∀ t : String, ∀ c ∈ t.data, isJsWhitespace c = false → c ∈ (collapseWs t).data) := by
  refine ⟨?_, ?_, ?_⟩
  · intro s c hc
    rcases List.mem_map.mp hc with ⟨c', _, rfl⟩
    unfold isStackNameChar sanitizeChar
    by_cases h : c'.isAlphanum <;> simp [h]
  · intro s
    show (s.data.map sanitizeChar).length = s.data.length
    exact List.length_map s.data sanitizeChar
  · intro t c hc hws
    exact mem_collapseWsAux_of_not_ws t.data false hc hws

/-- Witness for C5 (amended), at concrete inputs. -/
theorem c5_name_derivation_amended_witness :
    isStackNameChar '-' = true ∧ '_' ∈ (collapseWs "a_b").data :=
  ⟨c5_name_derivation_amended.1 "!" '-' (by decide),
   c5_name_derivation_amended.2.2 "a_b" '_' (by decide) (by decide)⟩

/-- Counterexample to **C6**: a remotely observed `FAILED` execution also
carries a result payload — the loop returns
`JSON.parse(output || '\x7b\x7d')` for *every* terminal status, so the
payload is not present iff `SUCCEEDED`. -/
theorem c6_counterexample :
    executeStandardStepFunctions miniParse 0 1000 "arn" [⟨1, "FAILED", none⟩] =
      Except.ok (some ⟨"FAILED", some (Json.obj []), "arn"⟩) ∧
    some (Json.obj []) ≠ (none : Option Json) ∧
    "FAILED" ≠ "SUCCEEDED" :=
  ⟨rfl, by simp, by decide⟩

/-- **C6 (amended)**: a returned outcome carries a parsed result payload
for *every* remotely observed terminal status (`SUCCEEDED`, `FAILED`,
`TIMED_OUT`, `ABORTED`); the payload is absent exactly in the locally
synthesized `TIMED_OUT` outcome, and fast-mode outcomes always carry a
payload. -/
theorem c6_result_presence_amended (parse : String → Option Json)
    (startTime timeout : Nat) (arn : String) :
    (∀ trace r, executeStandardStepFunctions parse startTime timeout arn trace =
          Except.ok (some r) → r.output = none → r.status = "TIMED_OUT") ∧
    (∀ syncResult res, executeExpressStepFunctions parse syncResult = Except.ok res →
        res.output ≠ none) ∧
    (∀ (now : Nat) (status : String) (o : Option String) (rest : List PollObservation) (v : Json),
        isTerminalStatus status = true →
        parse (jsStringOr o jsonEmptyLit) = some v →
        executeStandardStepFunctions parse startTime timeout arn (⟨now, status, o⟩ :: rest) =
          Except.ok (some ⟨status, some v, arn⟩)) := by
  refine ⟨executeStandard_output_none parse startTime timeout arn, ?_, ?_⟩
  · intro syncResult res h
    cases syncResult with
    | error e => simp [executeExpressStepFunctions] at h
    | ok r =>
      cases hp : parse (jsStringOr r.output jsonEmptyLit) with
      | none =>
        rw [executeExpress_ok parse r, hp] at h
        simp at h
      | some v =>
        rw [executeExpress_ok parse r, hp] at h
        injection h with h3
        rw [← h3]
        simp
  · intro now status o rest v h1 hp
    exact executeStandard_head_terminal parse startTime timeout arn now status o rest v h1 hp

/-- Witness for C6 (amended): the synthesized-timeout direction at a
concrete non-terminal trace. -/
theorem c6_result_presence_amended_witness :
    (⟨"TIMED_OUT", none, "arn"⟩ : StepFunctionsExecutionResult).status = "TIMED_OUT" :=
  (c6_result_presence_amended miniParse 0 10 "arn").1 [⟨100, "RUNNING", none⟩]
    ⟨"TIMED_OUT", none, "arn"⟩ (by rfl) (by rfl)

/-- Counterexample to **C7**: `s3.objectExists` converts *every* error to
`false` — a permission error does not propagate, against the claim (the
spec-prescribed behaviour `s3ObjectExistsSpec` would re-throw it). -/
theorem c7_counterexample :
    s3ObjectExists (Except.error S3Error.permissionDenied) = Except.ok false ∧
    s3ObjectExistsSpec (Except.error S3Error.permissionDenied) =
      Except.error S3Error.permissionDenied ∧
    (Except.ok false : Except S3Error Bool) ≠ Except.error S3Error.permissionDenied :=
  ⟨rfl, rfl, by simp⟩

/-- **C7 (amended)**: the existence check returns `false` when the head
call fails for *any* reason — not-found, permission and network errors
alike are swallowed; no error propagates to the caller (the `toHaveKey`
matcher likewise reports `pass: false` on any error). -/
theorem c7_exists_swallows_all_errors :
    s3ObjectExists (Except.ok ()) = Except.ok true ∧
    (∀ e : S3Error, s3ObjectExists (Except.error e) = Except.ok false) ∧
    (∀ e : S3Error, (toHaveKey (Except.error e)).pass = false) :=
  ⟨rfl, fun _ => rfl, fun _ => rfl⟩

/-- **C8**: in fast (express) mode a single synchronous call is issued and
its terminal status is mapped directly.  In the matcher, a
service-reported `FAILED` yields a returned `pass: false` result with the
raw output attached as `actual` — the function's return type is total
(`MatcherResult`, not `Except`), so no exception is thrown for that
expected-failure case; the toolkit client maps the returned status field
straight into the outcome. -/
theorem c8_express_failed_mapping :
    (∀ (parse : String → Option Json) (r : SyncResponse) (expectedResult : Option Json),
        r.status = "FAILED" →
        toCompleteExpressExecution parse (Except.ok r) expectedResult =
          ⟨false, some (MatcherPayload.raw r.output), none⟩) ∧
    (∀ (parse : String → Option Json) (r : SyncResponse) (v : Json),
        parse (jsStringOr r.output jsonEmptyLit) = some v →
        executeExpressStepFunctions parse (Except.ok r) =
          Except.ok ⟨r.status, some v, r.executionArn⟩) := by
  constructor
  · intro parse r expectedResult hs
    unfold toCompleteExpressExecution
    simp [hs]
  · intro parse r v hp
    rw [executeExpress_ok parse r, hp]

/-- Witness for C8: a `FAILED` sync response whose raw output is not even
JSON still comes back as a returned `pass: false` with the raw string
attached. -/
theorem c8_express_failed_mapping_witness :
    toCompleteExpressExecution miniParse (Except.ok ⟨"FAILED", some "boom", "arn"⟩)
        (some (Json.obj [])) =
      ⟨false, some (MatcherPayload.raw (some "boom")), none⟩ :=
  c8_express_failed_mapping.1 miniParse ⟨"FAILED", some "boom", "arn"⟩ (some (Json.obj [])) rfl

/-- Counterexample to **C9**: with teardown enabled, a failing destroy is
logged and then *re-thrown* by `destroyStack`, and the `afterAll` hook has
no catch — the failure propagates instead of being swallowed. -/
theorem c9_counterexample :
    cloudSpecAfterAll (some "true") (Except.error "AccessDenied") =
      Except.error "AccessDenied" ∧
    (Except.error "AccessDenied" : Except String TeardownAction) ≠
      Except.ok TeardownAction.destroyed :=
  ⟨rfl, by simp⟩

/-- **C9 (amended)**: destroy runs only when
`CLOUDSPEC_DESTROY_AFTER_TEST` is exactly `'true'`; on failure the error
is logged and re-thrown, so it propagates out of the teardown hook (and
can fail the run) rather than being swallowed. -/
theorem c9_destroy_gated_and_rethrows :
    (∀ (env : Option String) (cli : Except String Unit), env ≠ some "true" →
        cloudSpecAfterAll env cli = Except.ok TeardownAction.skipped) ∧
    (∀ e : String, cloudSpecAfterAll (some "true") (Except.error e) = Except.error e) ∧
    cloudSpecAfterAll (some "true") (Except.ok ()) = Except.ok TeardownAction.destroyed := by
  refine ⟨?_, ?_, rfl⟩
  · intro env cli h
    simp [cloudSpecAfterAll, h]
  · intro e
    rfl

/-- Witness for C9 (amended): teardown disabled (unset env), destroy is
skipped even though the CLI call would have failed. -/
theorem c9_destroy_gated_and_rethrows_witness :
    cloudSpecAfterAll none (Except.error "boom") = Except.ok TeardownAction.skipped :=
  c9_destroy_gated_and_rethrows.1 none (Except.error "boom") (by simp)

/-- **C10**: on a `SUCCEEDED` status the returned payload is exactly
`JSON.parse` of the raw output, with a missing (`undefined`) or empty raw
output replaced by `'\x7b\x7d'` — so the result is the empty object — and
a present-but-invalid raw output makes the call throw
(`Except.error`) instead of returning an outcome; the same holds on the
fast-mode path. -/
theorem c10_succeeded_result_is_parsed (parse : String → Option Json)
    (startTime timeout : Nat) (arn : String) :
    (∀ (now : Nat) (o : Option String) (rest : List PollObservation),
        executeStandardStepFunctions parse startTime timeout arn (⟨now, "SUCCEEDED", o⟩ :: rest) =
          match parse (jsStringOr o jsonEmptyLit) with
          | some v => Except.ok (some ⟨"SUCCEEDED", some v, arn⟩)
          | none => Except.error SfnError.jsonParseError) ∧
    (jsStringOr none jsonEmptyLit = jsonEmptyLit ∧ jsStringOr (some "") jsonEmptyLit = jsonEmptyLit) ∧
    miniParse jsonEmptyLit = some (Json.obj []) ∧
    (∀ (s : String) (now : Nat) (rest : List PollObservation), s ≠ "" → parse s = none →
        executeStandardStepFunctions parse startTime timeout arn
            (⟨now, "SUCCEEDED", some s⟩ :: rest) =
          Except.error SfnError.jsonParseError) ∧
    (∀ r : SyncResponse, executeExpressStepFunctions parse (Except.ok r) =
        match parse (jsStringOr r.output jsonEmptyLit) with
        | some v => Except.ok ⟨r.status, some v, r.executionArn⟩
        | none => Except.error SfnError.jsonParseError) := by
  refine ⟨?_, ⟨rfl, rfl⟩, rfl, ?_, fun r => executeExpress_ok parse r⟩
  · intro now o rest
    unfold executeStandardStepFunctions
    simp [isTerminalStatus]
  · intro s now rest hs hp
    unfold executeStandardStepFunctions
    have hj : jsStringOr (some s) jsonEmptyLit = s := by simp [jsStringOr, hs]
    simp [isTerminalStatus, hj, hp]

/-- Witness for C10: a present but invalid raw output makes the durable
poll loop throw. -/
theorem c10_succeeded_result_is_parsed_witness :
    executeStandardStepFunctions miniParse 0 1000 "arn" [⟨1, "SUCCEEDED", some "not json"⟩] =
      Except.error SfnError.jsonParseError :=
  (c10_succeeded_result_is_parsed miniParse 0 1000 "arn").2.2.2.1 "not json" 1 []
    (by decide) (by rfl)
